import Mathlib

/-!
Verification development for the StoneAggregator world-state aggregation
engine (source: `aggregation.py`).  The Python classes `BeaconId`,
`Contact`, `Stone`, `World`, `Aggregator` and the message handler
`MqttService.on_message` are shallowly embedded as executable Lean
definitions; machine integers are modelled as `Int` (the Python values
are arbitrary-precision anyway), dictionaries as insertion-ordered
association lists, and fallible code as `Option`.
-/

/-! ## Data model (`BeaconId`, `Contact`, `Stone`, lines 15-67) -/

/-- Embeds class `BeaconId` (lines 15-30).  Python `__eq__`/`__hash__` are
structural over `(uuid, major, minor)`, matching derived equality. -/
structure BeaconId where
  uuid : String
  major : Int
  minor : Int
  deriving DecidableEq

/-- Embeds class `Contact` (lines 33-41): one observation of a mobile
beacon by a stone, immutable once constructed. -/
structure Contact where
  timestamp : Int
  mac_address : String
  b_address : BeaconId
  rssi_min : Int
  rssi_max : Int
  rssi_avg : Int
  tx_rssi : Int
  deriving DecidableEq

/-- Embeds class `Stone` (lines 44-67). -/
structure Stone where
  mac_address : String
  b_address : BeaconId
  comment : String
  last_update : Int
  contacts : List Contact
  deriving DecidableEq

/-- Embeds the `Stone` constructor (lines 45-53): static data plus
`last_update = 0` and `contacts = []`. -/
def Stone.init (mac_address : String) (b_address : BeaconId) (comment : String) : Stone :=
  Stone.mk mac_address b_address comment 0 []

/-- Embeds the filter predicate of line 62:
`c.timestamp >= (timestamp - 60)`. -/
def windowKeep (timestamp : Int) (c : Contact) : Bool :=
  decide (c.timestamp ≥ timestamp - 60)

/-- Embeds one iteration of the loop at lines 65-67: drop every stored
contact sharing the incoming contact's `mac_address`, then append it. -/
def contactStep (acc : List Contact) (ct : Contact) : List Contact :=
  (acc.filter (fun x => x.mac_address != ct.mac_address)) ++ [ct]

/-- Embeds `Stone.update` (lines 55-67): set `last_update`, evict contacts
older than 60 seconds relative to the incoming timestamp (line 62), then
replace-or-append each incoming contact (lines 65-67). -/
def Stone.update (s : Stone) (timestamp : Int) (recent_contacts : List Contact) : Stone :=
  { s with
    last_update := timestamp,
    contacts := recent_contacts.foldl contactStep (s.contacts.filter (windowKeep timestamp)) }

/-- Folds a sequence of `Stone.update` calls (each a timestamp paired with
the incoming contact list) over a stone, left to right. -/
def runUpdates (s : Stone) (calls : List (Int × List Contact)) : Stone :=
  calls.foldl (fun st call => st.update call.1 call.2) s

/-- Holds when `x`'s source address differs from every address in `S`
(i.e. `x` is untouched by the replace loop run on `S`). -/
def macFree (S : List Contact) (x : Contact) : Bool :=
  S.all (fun ct => x.mac_address != ct.mac_address)

/-! ## Shared store (`World`, lines 70-94).  Python dicts are modelled as
insertion-ordered association lists with unique keys enforced by the
operations, exactly the behaviour of `dict.__getitem__` / `__setitem__`.
The lock (lines 74-77) serialises handler bodies; the embedding models the
serialised executions themselves, so each operation is a pure step. -/

/-- Dictionary lookup: first entry with the given key. -/
def dictLookup {α : Type} : List (String × α) → String → Option α
  | [], _ => none
  | (k', v) :: rest, k => if k' = k then some v else dictLookup rest k

/-- Dictionary assignment `d[k] = v`: overwrite the entry in place when the
key is present, otherwise append a new entry (insertion order preserved,
as for a Python dict). -/
def dictSet {α : Type} (l : List (String × α)) (k : String) (v : α) : List (String × α) :=
  if (dictLookup l k).isSome then
    l.map (fun p => if p.1 = k then (k, v) else p)
  else
    l ++ [(k, v)]

/-- Embeds class `World` (lines 70-94): `stones : mac => Stone` and
`descs : mac => (name, color)`. -/
structure World where
  stones : List (String × Stone)
  descs : List (String × (String × String))
  deriving DecidableEq

/-- Embeds `World.update_stone` (lines 85-90): insert the stone when its
address is absent, otherwise call `update` on the stored stone with the
incoming snapshot's `last_update` and `contacts`. -/
def World.update_stone (w : World) (stone : Stone) : World :=
  match dictLookup w.stones stone.mac_address with
  | none => { w with stones := dictSet w.stones stone.mac_address stone }
  | some existing =>
    { w with
      stones := dictSet w.stones stone.mac_address
        (existing.update stone.last_update stone.contacts) }

/-- Embeds `World.update_desc` (lines 92-94):
`self.descs[mac_address] = (name, color)`. -/
def World.update_desc (w : World) (mac_address name color : String) : World :=
  { w with descs := dictSet w.descs mac_address (name, color) }

/-! ## Aggregator (lines 97-126).  The Python functions build dicts and
`json.dumps` them; the embedding produces the documents themselves
(JSON serialisation of a finished document is external string formatting).
An absent dict key is modelled as `none` / a missing `Option` field. -/

/-- One element of the `'contacts'` list built at line 107.  Note the
record has no timestamp field, exactly as the emitted object. -/
structure ContactInfo where
  mac : String
  uuid : String
  major : Int
  minor : Int
  rssi_avg : Int
  rssi_tx : Int
  deriving DecidableEq

/-- Embeds line 107: the per-contact entry of the stones view. -/
def contactInfoOf (c : Contact) : ContactInfo :=
  ContactInfo.mk c.mac_address c.b_address.uuid c.b_address.major c.b_address.minor
    c.rssi_avg c.tx_rssi

/-- One value of the `stones_info` dict of `aggregate_stones`
(lines 103-107).  `contacts = none` models the `'contacts'` key being
absent from the emitted object. -/
structure StoneInfo where
  uuid : String
  major : Int
  minor : Int
  comment : String
  last_seen : Int
  contacts : Option (List ContactInfo)
  deriving DecidableEq

/-- Embeds the body of the loop at lines 102-107 for one stone. -/
def stoneInfoOf (include_contacts : Bool) (s : Stone) : StoneInfo :=
  { uuid := s.b_address.uuid, major := s.b_address.major, minor := s.b_address.minor,
    comment := s.comment, last_seen := s.last_update,
    contacts := if include_contacts then some (s.contacts.map contactInfoOf) else none }

/-- Embeds `Aggregator.aggregate_stones` (lines 98-108).  The
`CONFIG.getboolean('Aggregator', 'StoneInfoIncludeContacts')` read at
line 104 is constant during one call and is passed as the
`include_contacts` parameter. -/
def Aggregator.aggregate_stones (stones : List (String × Stone)) (include_contacts : Bool) :
    List (String × StoneInfo) :=
  stones.map (fun p => (p.1, stoneInfoOf include_contacts p.2))

/-- One element of the graph view's `'contacts'` list (line 117). -/
structure GraphContactInfo where
  mac : String
  uuid : String
  major : Int
  minor : Int
  age : Int
  rssi_avg : Int
  rssi_tx : Int
  deriving DecidableEq

/-- Embeds line 117: the per-contact entry of the graph view. -/
def graphContactInfoOf (current_time : Int) (c : Contact) : GraphContactInfo :=
  GraphContactInfo.mk c.mac_address c.b_address.uuid c.b_address.major c.b_address.minor
    (current_time - c.timestamp) c.rssi_avg c.tx_rssi

/-- One value of the `stones_info` dict of `aggregate_graph`
(lines 115-117). -/
structure GraphStoneInfo where
  uuid : String
  major : Int
  minor : Int
  comment : String
  age : Int
  contacts : List GraphContactInfo
  deriving DecidableEq

/-- Embeds the body of the loop at lines 114-117 for one stone. -/
def graphStoneInfoOf (current_time : Int) (s : Stone) : GraphStoneInfo :=
  { uuid := s.b_address.uuid, major := s.b_address.major, minor := s.b_address.minor,
    comment := s.comment, age := current_time - s.last_update,
    contacts := s.contacts.map (graphContactInfoOf current_time) }

/-- Embeds `Aggregator.aggregate_graph` (lines 110-118). -/
def Aggregator.aggregate_graph (stones : List (String × Stone)) (current_time : Int) :
    List (String × GraphStoneInfo) :=
  stones.map (fun p => (p.1, graphStoneInfoOf current_time p.2))

/-- One value of the `descs_info` dict of `aggregate_descs` (line 125). -/
structure DescInfo where
  name : String
  color : String
  deriving DecidableEq

/-- Embeds line 125: `{'name': d[0], 'color': d[1]}`. -/
def descInfoOf (p : String × String) : DescInfo :=
  DescInfo.mk p.1 p.2

/-- Embeds `Aggregator.aggregate_descs` (lines 120-126). -/
def Aggregator.aggregate_descs (descriptions : List (String × (String × String))) :
    List (String × DescInfo) :=
  descriptions.map (fun q => (q.1, descInfoOf q.2))

/-! ## Dynamic JSON values for the ingestion pipeline (lines 166-218).
A decoded `json.loads` result is a dynamic value; the fragment the handler
touches (objects, strings, integers, arrays) is modelled by `JValue`.
Messages are taken schema-typed (uuid a string, rssi values integers),
matching the sensor report schema; field *absence* — the failure mode the
handler can actually hit as a `KeyError` — is modelled exactly. -/

inductive JValue where
  | jstr (s : String)
  | jint (n : Int)
  | jobj (fields : List (String × JValue))
  | jarr (elems : List JValue)

/-- Lookup of a key in the field list of a JSON object. -/
def lookupField : List (String × JValue) → String → Option JValue
  | [], _ => none
  | (k', v) :: rest, k => if k' = k then some v else lookupField rest k

/-- Python `data[k]` / `k in data` on a decoded JSON object: `none` models
the `KeyError` / `False` case. -/
def jlookup : JValue → String → Option JValue
  | JValue.jobj fields, k => lookupField fields k
  | _, _ => none

/-- Extracts a string field (schema type of `uuid`, `comment`,
`timestamp`, `mac`, `name`, `color`). -/
def jgetStr (v : JValue) (k : String) : Option String :=
  match jlookup v k with
  | some (JValue.jstr s) => some s
  | _ => none

/-- Extracts an integer field (schema type of `major`, `minor`, `min`,
`max`, `avg`, `remoteRssi`). -/
def jgetInt (v : JValue) (k : String) : Option Int :=
  match jlookup v k with
  | some (JValue.jint n) => some n
  | _ => none

/-- Extracts an array field (schema type of `data`). -/
def jgetArr (v : JValue) (k : String) : Option (List JValue) :=
  match jlookup v k with
  | some (JValue.jarr l) => some l
  | _ => none

/-! ## Timestamp parsing (lines 186-190).
`datetime.strptime(time_string, BLANK)` with format `%Y-%m-%dT%H:%M:%SZ`
is a strict parser that raises `ValueError` on any deviation; it is
embedded as `strptimeZ`.  The subsequent `time_dt.replace(tzinfo=tz.UTC)`
RETURNS a re-zoned copy which the source DISCARDS, so `time_dt` stays
naive and `time_dt.timestamp()` interprets it in the process's local time
zone.  The local zone is modelled as a fixed offset of `local_utc_offset`
seconds east of UTC. -/

/-- Value of a decimal digit character, `none` otherwise. -/
def digitVal (c : Char) : Option Nat :=
  if c.isDigit then some (c.toNat - 48) else none

/-- Two-digit decimal number from two characters. -/
def num2 (a b : Char) : Option Nat := do
  let x ← digitVal a
  let y ← digitVal b
  pure (10 * x + y)

/-- Four-digit decimal number from four characters. -/
def num4 (a b c d : Char) : Option Nat := do
  let x ← num2 a b
  let y ← num2 c d
  pure (100 * x + y)

/-- Gregorian leap-year rule, as used by Python's `datetime`. -/
def isLeap (y : Nat) : Bool :=
  (y % 4 == 0 && y % 100 != 0) || (y % 400 == 0)

/-- Length of a month, as validated by the `datetime` constructor. -/
def daysInMonth (y m : Nat) : Nat :=
  if m == 2 then (if isLeap y then 29 else 28)
  else if m == 4 || m == 6 || m == 9 || m == 11 then 30
  else 31

/-- Naive (zone-less) datetime fields, as held by the parsed
`datetime.datetime` object. -/
structure DateTimeF where
  year : Nat
  month : Nat
  day : Nat
  hour : Nat
  minute : Nat
  second : Nat
  deriving DecidableEq

/-- Embeds `datetime.strptime(s, BLANK)` with format string
`%Y-%m-%dT%H:%M:%SZ` (line 188): exactly four year digits, two digits for
each other field, the literal separators, and the range checks the
resulting `datetime` constructor performs; any deviation raises
`ValueError`, modelled as `none`. -/
def strptimeZ (s : String) : Option DateTimeF :=
  match s.data with
  | [y1, y2, y3, y4, '-', m1, m2, '-', d1, d2, 'T',
     h1, h2, ':', n1, n2, ':', s1, s2, 'Z'] => do
    let y ← num4 y1 y2 y3 y4
    let mo ← num2 m1 m2
    let d ← num2 d1 d2
    let h ← num2 h1 h2
    let mi ← num2 n1 n2
    let se ← num2 s1 s2
    if 1 ≤ y ∧ 1 ≤ mo ∧ mo ≤ 12 ∧ 1 ≤ d ∧ d ≤ daysInMonth y mo ∧
        h ≤ 23 ∧ mi ≤ 59 ∧ se ≤ 59 then
      pure (DateTimeF.mk y mo d h mi se)
    else
      none
  | _ => none

/-- Days from 1970-01-01 to the given civil date (standard
days-from-civil algorithm, exact for every valid Gregorian date). -/
def daysFromCivil (y m d : Int) : Int :=
  let y' := if m ≤ 2 then y - 1 else y
  let era := Int.fdiv y' 400
  let yoe := y' - era * 400
  let mp := Int.emod (m + 9) 12
  let doy := Int.fdiv (153 * mp + 2) 5 + d - 1
  let doe := yoe * 365 + Int.fdiv yoe 4 - Int.fdiv yoe 100 + doy
  era * 146097 + doe - 719468

/-- Epoch seconds of naive datetime fields read as UTC. -/
def naiveEpoch (dt : DateTimeF) : Int :=
  daysFromCivil (Int.ofNat dt.year) (Int.ofNat dt.month) (Int.ofNat dt.day) * 86400
    + Int.ofNat dt.hour * 3600 + Int.ofNat dt.minute * 60 + Int.ofNat dt.second

/-- Embeds lines 187-190 of `on_message`.  The re-zoned datetime produced
by `time_dt.replace(tzinfo=tz.UTC)` at line 189 is discarded by the
source, so `int(time_dt.timestamp())` at line 190 converts the NAIVE
datetime using the local zone: for a zone `local_utc_offset` seconds east
of UTC the result is the UTC-fields epoch minus that offset. -/
def parseTimestamp (local_utc_offset : Int) (s : String) : Option Int :=
  (strptimeZ s).map (fun dt => naiveEpoch dt - local_utc_offset)

/-! ## Contact parsing (lines 193-196). -/

/-- Embeds line 195: the contact's beacon identity is built from
`ct['uuid']`, `ct['major']`, `ct['minor']` when all three keys are
present, and defaults to `BeaconId('', 0, 0)` otherwise.  The wildcard
arm covers a present field of non-schema type, which is outside the
modelled (schema-typed) message fragment. -/
def contactBeaconId (ct : JValue) : Option BeaconId :=
  if (jlookup ct "uuid").isSome && (jlookup ct "major").isSome
      && (jlookup ct "minor").isSome then
    match jlookup ct "uuid", jlookup ct "major", jlookup ct "minor" with
    | some (JValue.jstr u), some (JValue.jint ma), some (JValue.jint mi) =>
      some (BeaconId.mk u ma mi)
    | _, _, _ => none
  else
    some (BeaconId.mk "" 0 0)

/-- Embeds line 196: `Contact(timestamp, ct['mac'], bid, ct['min'],
ct['max'], ct['avg'], ct['remoteRssi'])`; any missing key raises
`KeyError`, modelled as `none`. -/
def parseContact (timestamp : Int) (ct : JValue) : Option Contact := do
  let bid ← contactBeaconId ct
  let mac ← jgetStr ct "mac"
  let rmin ← jgetInt ct "min"
  let rmax ← jgetInt ct "max"
  let ravg ← jgetInt ct "avg"
  let rtx ← jgetInt ct "remoteRssi"
  pure (Contact.mk timestamp mac bid rmin rmax ravg rtx)

/-! ## Message handler (`MqttService`, lines 129-222). -/

/-- The handler-relevant fields of `MqttService` (lines 140-157): the
configured topic names and the throttle state.  `channel_in_sensors_pre`
is the source's sensor-topic name base (default `JellingStone/`) used at
lines 181-183 with `startswith` and slicing. -/
structure MqttState where
  channel_in_sensors_pre : String
  channel_in_nameupdate : String
  channel_out_stones : String
  channel_out_graph : String
  channel_out_names : String
  update_interval : Int
  last_stone_update : Int
  deriving DecidableEq

/-- Configuration and environment read by the handler: the
`StoneInfoIncludeContacts` flag (line 104) and the process's local UTC
offset in seconds (affecting `datetime.timestamp()` at line 190). -/
structure Config where
  include_contacts : Bool
  local_utc_offset : Int
  deriving DecidableEq

/-- A document handed to `publish_persistent` (lines 206-218), tagged by
which aggregation produced it. -/
inductive OutDoc where
  | stonesDoc (d : List (String × StoneInfo))
  | graphDoc (d : List (String × GraphStoneInfo))
  | namesDoc (d : List (String × DescInfo))
  deriving DecidableEq

/-- How one `on_message` invocation ended. `decodeError` is the `except`
branch of lines 177-179 (error printed, message dropped); `uncaught` is an
exception (`KeyError` / `ValueError`) raised after the `try` block and
escaping the handler; `handled` is a normal return. -/
inductive Outcome where
  | decodeError
  | uncaught
  | handled
  deriving DecidableEq

/-- An inbound payload after the decode step of lines 170-176 (zlib
sniffing/decompression plus `json.loads`, both external library calls):
either those raised — `undecodable` — or they produced a JSON value. -/
inductive RawPayload where
  | undecodable
  | decoded (data : JValue)

/-- Result of one `on_message` invocation: the `MqttService` throttle
state, the world, the messages handed to `publish_persistent` (topic and
document, in order), and how the invocation ended. -/
structure HandlerResult where
  state : MqttState
  world : World
  pubs : List (String × OutDoc)
  outcome : Outcome
  deriving DecidableEq

/-- Character-list version of Python `str.startswith`. -/
def charsStartWith : List Char → List Char → Bool
  | _, [] => true
  | [], _ :: _ => false
  | c :: cs, p :: ps => c == p && charsStartWith cs ps

/-- Embeds `topic.startswith(self.channel_in_sensors_prefix)`
(line 181). -/
def topicStartsWith (topic pre : String) : Bool :=
  charsStartWith topic.data pre.data

/-- Embeds `topic[len(self.channel_in_sensors_prefix):]` (line 183). -/
def topicSuffix (topic pre : String) : String :=
  String.mk (topic.data.drop pre.data.length)

/-- Embeds the throttled republication of lines 203-209: only when
`timestamp - last_stone_update >= update_interval` does the handler
advance `last_stone_update`, aggregate, and hand the stones and graph
documents to `publish_persistent`. -/
def throttle_publish (cfg : Config) (st : MqttState) (w : World) (timestamp : Int) :
    MqttState × List (String × OutDoc) :=
  if timestamp - st.last_stone_update ≥ st.update_interval then
    ({ st with last_stone_update := timestamp },
      [(st.channel_out_stones,
          OutDoc.stonesDoc (Aggregator.aggregate_stones w.stones cfg.include_contacts)),
        (st.channel_out_graph,
          OutDoc.graphDoc (Aggregator.aggregate_graph w.stones timestamp))])
  else
    (st, [])

/-- Embeds the sensor branch of `on_message` (lines 181-209): read the
stone fields, parse the timestamp, parse the contacts, build the stone
snapshot and `update` it with the parsed contacts (line 197), merge it
into the world (line 200), then run the throttled republication.  A
`none` is a `KeyError`/`ValueError` raised before any mutation. -/
def handle_sensor (cfg : Config) (st : MqttState) (w : World) (mac_address : String)
    (data : JValue) : Option (MqttState × World × List (String × OutDoc)) := do
  let uuid ← jgetStr data "uuid"
  let major ← jgetInt data "major"
  let minor ← jgetInt data "minor"
  let comment ← jgetStr data "comment"
  let time_string ← jgetStr data "timestamp"
  let timestamp ← parseTimestamp cfg.local_utc_offset time_string
  let entries ← jgetArr data "data"
  let contacts ← entries.mapM (parseContact timestamp)
  let stone := (Stone.init mac_address (BeaconId.mk uuid major minor) comment).update
    timestamp contacts
  let w' := w.update_stone stone
  let p := throttle_publish cfg st w' timestamp
  pure (p.1, w', p.2)

/-- Embeds the name-update branch of `on_message` (lines 211-218): read
`mac`, `name`, `color` (all evaluated before any mutation), update the
description, aggregate all descriptions and publish them. -/
def handle_name (st : MqttState) (w : World) (data : JValue) :
    Option (World × List (String × OutDoc)) := do
  let mac ← jgetStr data "mac"
  let name ← jgetStr data "name"
  let color ← jgetStr data "color"
  let w' := w.update_desc mac name color
  pure (w', [(st.channel_out_names,
    OutDoc.namesDoc (Aggregator.aggregate_descs w'.descs))])

/-- Embeds `MqttService.on_message` (lines 166-218) for one inbound
message.  The decode step (lines 170-179) either fails — the `except`
branch prints and returns, leaving every piece of state untouched — or
yields a JSON value routed by topic. -/
def on_message (cfg : Config) (st : MqttState) (w : World) (topic : String)
    (payload : RawPayload) : HandlerResult :=
  match payload with
  | RawPayload.undecodable => HandlerResult.mk st w [] Outcome.decodeError
  | RawPayload.decoded data =>
    if topicStartsWith topic st.channel_in_sensors_pre then
      match handle_sensor cfg st w (topicSuffix topic st.channel_in_sensors_pre) data with
      | some r => HandlerResult.mk r.1 r.2.1 r.2.2 Outcome.handled
      | none => HandlerResult.mk st w [] Outcome.uncaught
    else if topic = st.channel_in_nameupdate then
      match handle_name st w data with
      | some r => HandlerResult.mk st r.1 r.2 Outcome.handled
      | none => HandlerResult.mk st w [] Outcome.uncaught
    else
      HandlerResult.mk st w [] Outcome.handled

/-! ## Concrete fixtures used by witnesses, counterexamples and
scenario conjuncts. -/

/-- The source's default configuration values (lines 140-157, 104). -/
def defaultState : MqttState :=
  MqttState.mk "JellingStone/" "NameUpdate" "Aggregated/Stones" "Aggregated/Graph"
    "Aggregated/Names" 4 0

/-- Default `StoneInfoIncludeContacts = true`, local zone at UTC. -/
def defaultConfig : Config :=
  Config.mk true 0

/-- The freshly constructed `World` (lines 71-74). -/
def emptyWorld : World :=
  World.mk [] []

/-- Fixture contact observed at t = 0 with source address `a`. -/
def exContactA : Contact :=
  Contact.mk 0 "a" (BeaconId.mk "" 0 0) 0 0 0 0

/-- Fixture contact observed at t = 30 with source address `b`. -/
def exContactB : Contact :=
  Contact.mk 30 "b" (BeaconId.mk "" 0 0) 0 0 0 0

/-- Fixture contact observed at t = 61 with source address `c`. -/
def exContactC : Contact :=
  Contact.mk 61 "c" (BeaconId.mk "" 0 0) 0 0 0 0

/-- A stone holding contacts from t = 0 and t = 30 after an update at
t = 61 delivering a fresh contact. -/
def exStone61 : Stone :=
  (Stone.mk "s" (BeaconId.mk "" 0 0) "" 30 [exContactA, exContactB]).update 61 [exContactC]

/-- Fixture stored stone. -/
def exStoneOld : Stone :=
  Stone.mk "s" (BeaconId.mk "u1" 1 1) "old" 100 [exContactB]

/-- Fixture incoming snapshot for the same address with different static
fields. -/
def exStoneNew : Stone :=
  Stone.mk "s" (BeaconId.mk "u2" 2 2) "new" 130 [exContactC]

/-- Fixture world holding `exStoneOld`. -/
def exWorld : World :=
  World.mk [("s", exStoneOld)] [("s", ("n0", "c0"))]

/-- A valid sensor report with timestamp 2021-06-01T12:00:00Z. -/
def sensorPayload1 : JValue :=
  JValue.jobj [("uuid", JValue.jstr "u"), ("major", JValue.jint 1),
    ("minor", JValue.jint 2), ("comment", JValue.jstr "c"),
    ("timestamp", JValue.jstr "2021-06-01T12:00:00Z"), ("data", JValue.jarr [])]

/-- A valid sensor report for the same stone three seconds
(`update_interval - 1`) later. -/
def sensorPayload2 : JValue :=
  JValue.jobj [("uuid", JValue.jstr "u"), ("major", JValue.jint 1),
    ("minor", JValue.jint 2), ("comment", JValue.jstr "c"),
    ("timestamp", JValue.jstr "2021-06-01T12:00:03Z"), ("data", JValue.jarr [])]

/-- Handler run on the first report, from the initial state. -/
def run1 : HandlerResult :=
  on_message defaultConfig defaultState emptyWorld "JellingStone/st1"
    (RawPayload.decoded sensorPayload1)

/-- Handler run on the second report, from the state `run1` left. -/
def run2 : HandlerResult :=
  on_message defaultConfig run1.state run1.world "JellingStone/st1"
    (RawPayload.decoded sensorPayload2)

/-- A contact entry carrying no beacon identity fields. -/
def exEntryNoBid : JValue :=
  JValue.jobj [("mac", JValue.jstr "m"), ("min", JValue.jint (-90)),
    ("max", JValue.jint (-40)), ("avg", JValue.jint (-60)),
    ("remoteRssi", JValue.jint (-50))]

/-- The contact `exEntryNoBid` parses to at timestamp 5. -/
def exParsedNoBid : Contact :=
  Contact.mk 5 "m" (BeaconId.mk "" 0 0) (-90) (-40) (-60) (-50)

/-! ## Helper lemmas about the contact-replacement fold. -/

/-- Filtering with a predicate every element already passes is the
identity. -/
theorem filter_of_all {α : Type} {p : α → Bool} {l : List α}
    (h : ∀ a ∈ l, p a = true) : l.filter p = l :=
  List.filter_eq_self.mpr h

/-- Every element of the fold came from the accumulator or from the
incoming contacts. -/
theorem mem_contactFold {x : Contact} :
    ∀ (S acc : List Contact), x ∈ S.foldl contactStep acc → x ∈ acc ∨ x ∈ S := by
  intro S
  induction S with
  | nil => intro acc h; exact Or.inl h
  | cons ct rest ih =>
    intro acc h
    rcases ih (contactStep acc ct) h with h' | h'
    · unfold contactStep at h'
      rcases List.mem_append.mp h' with h2 | h2
      · exact Or.inl (List.mem_of_mem_filter h2)
      · rcases List.mem_singleton.mp h2 with rfl
        exact Or.inr (List.mem_cons_self _ _)
    · exact Or.inr (List.mem_cons_of_mem _ h')

/-- The fold splits into the accumulator entries whose addresses do not
occur among the incoming contacts, followed by the fold started empty. -/
theorem contactFold_decomp :
    ∀ (S acc : List Contact),
      S.foldl contactStep acc = acc.filter (macFree S) ++ S.foldl contactStep [] := by
  intro S
  induction S with
  | nil =>
    intro acc
    show acc = acc.filter (macFree []) ++ []
    rw [List.append_nil]
    exact (filter_of_all (fun a _ => rfl)).symm
  | cons ct rest ih =>
    intro acc
    have h1 : (ct :: rest).foldl contactStep acc = rest.foldl contactStep (contactStep acc ct) :=
      rfl
    have h2 : (ct :: rest).foldl contactStep [] = rest.foldl contactStep (contactStep [] ct) :=
      rfl
    rw [h1, ih (contactStep acc ct), h2, ih (contactStep [] ct)]
    unfold contactStep
    rw [List.filter_append, List.filter_filter, List.append_assoc]
    have hcomm : ∀ a : Contact,
        (macFree rest a && (a.mac_address != ct.mac_address)) = macFree (ct :: rest) a := by
      intro a
      simp [macFree, List.all_cons, Bool.and_comm]
    simp only [hcomm, List.filter_nil, List.nil_append]

/-- A contact drawn from the incoming list is never address-free of it. -/
theorem macFree_eq_false_of_mem {x : Contact} {S : List Contact} (h : x ∈ S) :
    macFree S x = false := by
  unfold macFree
  cases hall : S.all (fun ct => x.mac_address != ct.mac_address) with
  | false => rfl
  | true =>
    have hx := List.all_eq_true.mp hall x h
    simp at hx

/-- The replace-then-append loop preserves distinctness of the stored
source addresses. -/
theorem nodup_contactFold :
    ∀ (S acc : List Contact), (acc.map Contact.mac_address).Nodup →
      ((S.foldl contactStep acc).map Contact.mac_address).Nodup := by
  intro S
  induction S with
  | nil => intro acc h; exact h
  | cons ct rest ih =>
    intro acc h
    apply ih
    unfold contactStep
    rw [List.map_append]
    apply List.Nodup.append
    · exact ((List.filter_sublist acc).map Contact.mac_address).nodup h
    · simp
    · intro a ha hb
      simp only [List.map_cons, List.map_nil, List.mem_singleton] at hb
      rcases List.mem_map.mp ha with ⟨x, hx, rfl⟩
      have := List.of_mem_filter hx
      simp only [bne_iff_ne, ne_eq] at this
      exact this (by simpa using hb)

/-- Re-running the window filter and the replacement loop on their own
result changes nothing. -/
theorem contactFold_idem (T : Int) (S L : List Contact) :
    S.foldl contactStep ((S.foldl contactStep (L.filter (windowKeep T))).filter (windowKeep T))
      = S.foldl contactStep (L.filter (windowKeep T)) := by
  rw [contactFold_decomp S (L.filter (windowKeep T))]
  rw [List.filter_append]
  have hK : ((L.filter (windowKeep T)).filter (macFree S)).filter (windowKeep T)
      = (L.filter (windowKeep T)).filter (macFree S) := by
    apply filter_of_all
    intro a ha
    exact List.of_mem_filter (List.mem_of_mem_filter ha)
  rw [hK]
  rw [contactFold_decomp S ((L.filter (windowKeep T)).filter (macFree S)
    ++ (S.foldl contactStep []).filter (windowKeep T))]
  rw [List.filter_append]
  have hK2 : (((L.filter (windowKeep T)).filter (macFree S)).filter (macFree S))
      = (L.filter (windowKeep T)).filter (macFree S) := by
    apply filter_of_all
    intro a ha
    exact List.of_mem_filter ha
  have hD : (((S.foldl contactStep []).filter (windowKeep T)).filter (macFree S)) = [] := by
    apply List.filter_eq_nil_iff.mpr
    intro a ha
    have haS : a ∈ S := by
      rcases mem_contactFold S [] (List.mem_of_mem_filter ha) with h | h
      · cases h
      · exact h
    simp [macFree_eq_false_of_mem haS]
  rw [hK2, hD]
  simp

/-! ## Helper lemmas about the association-list dictionary. -/

/-- In-place overwrite of a present key, looked up at that key. -/
theorem dictLookup_mapSet_same {α : Type} (k : String) (v : α) :
    ∀ l : List (String × α), (dictLookup l k).isSome →
      dictLookup (l.map (fun p => if p.1 = k then (k, v) else p)) k = some v := by
  intro l
  induction l with
  | nil => intro h; simp [dictLookup] at h
  | cons p rest ih =>
    intro h
    obtain ⟨a, b⟩ := p
    rw [List.map_cons]
    by_cases ha : a = k
    · have h1 : (if (a, b).1 = k then (k, v) else (a, b)) = (k, v) := by simp [ha]
      rw [h1]
      simp [dictLookup]
    · have h1 : (if (a, b).1 = k then (k, v) else (a, b)) = (a, b) := by simp [ha]
      rw [h1]
      have h' : (dictLookup rest k).isSome := by simpa [dictLookup, ha] using h
      simpa [dictLookup, ha] using ih h'

/-- In-place overwrite of one key, looked up at a different key. -/
theorem dictLookup_mapSet_ne {α : Type} (k k' : String) (v : α) (hne : k' ≠ k) :
    ∀ l : List (String × α),
      dictLookup (l.map (fun p => if p.1 = k then (k, v) else p)) k' = dictLookup l k' := by
  intro l
  induction l with
  | nil => rfl
  | cons p rest ih =>
    obtain ⟨a, b⟩ := p
    rw [List.map_cons]
    by_cases ha : a = k
    · have h1 : (if (a, b).1 = k then (k, v) else (a, b)) = (k, v) := by simp [ha]
      rw [h1]
      have h2 : ¬ (k = k') := fun hh => hne hh.symm
      have h3 : ¬ (a = k') := by rw [ha]; exact h2
      simp [dictLookup, h2, h3, ih]
    · have h1 : (if (a, b).1 = k then (k, v) else (a, b)) = (a, b) := by simp [ha]
      rw [h1]
      by_cases ha' : a = k'
      · simp [dictLookup, ha']
      · simp [dictLookup, ha', ih]

/-- Appending past a list that lacks the key. -/
theorem dictLookup_append_right {α : Type} (k : String) :
    ∀ (l m : List (String × α)), dictLookup l k = none →
      dictLookup (l ++ m) k = dictLookup m k := by
  intro l m
  induction l with
  | nil => intro _; rfl
  | cons p rest ih =>
    intro h
    obtain ⟨a, b⟩ := p
    by_cases ha : a = k
    · simp [dictLookup, ha] at h
    · rw [List.cons_append]
      simp only [dictLookup, ha, if_false] at h ⊢
      exact ih h

/-- Appending a single binding of a different key changes no other
lookup. -/
theorem dictLookup_append_single_ne {α : Type} (k k' : String) (v : α) (hne : k' ≠ k) :
    ∀ l : List (String × α), dictLookup (l ++ [(k, v)]) k' = dictLookup l k' := by
  intro l
  induction l with
  | nil =>
    have h2 : ¬ (k = k') := fun hh => hne hh.symm
    simp [dictLookup, h2]
  | cons p rest ih =>
    obtain ⟨a, b⟩ := p
    rw [List.cons_append]
    by_cases ha' : a = k'
    · simp [dictLookup, ha']
    · simp [dictLookup, ha', ih]

/-- Looking up a key right after assigning it yields the assigned value. -/
theorem dictLookup_dictSet_same {α : Type} (l : List (String × α)) (k : String) (v : α) :
    dictLookup (dictSet l k v) k = some v := by
  unfold dictSet
  by_cases h : (dictLookup l k).isSome
  · rw [if_pos h]
    exact dictLookup_mapSet_same k v l h
  · rw [if_neg h]
    rw [Option.not_isSome_iff_eq_none] at h
    rw [dictLookup_append_right k l [(k, v)] h]
    simp [dictLookup]

/-- Assigning one key leaves the value found at any other key unchanged. -/
theorem dictLookup_dictSet_ne {α : Type} (l : List (String × α)) (k k' : String) (v : α)
    (hne : k' ≠ k) : dictLookup (dictSet l k v) k' = dictLookup l k' := by
  unfold dictSet
  by_cases h : (dictLookup l k).isSome
  · rw [if_pos h]
    exact dictLookup_mapSet_ne k k' v hne l
  · rw [if_neg h]
    exact dictLookup_append_single_ne k k' v hne l

/-- Looking up through a value-mapping of the dictionary commutes with the
mapping. -/
theorem dictLookup_mapVal {α β : Type} (f : α → β) :
    ∀ (l : List (String × α)) (k : String),
      dictLookup (l.map (fun p => (p.1, f p.2))) k = (dictLookup l k).map f := by
  intro l
  induction l with
  | nil => intro k; rfl
  | cons p rest ih =>
    intro k
    obtain ⟨a, b⟩ := p
    rw [List.map_cons]
    by_cases h : a = k
    · simp [dictLookup, h]
    · simp [dictLookup, h, ih]

/-! ## Invariant-establishment lemmas for `Stone.update`. -/

/-- Folding any sequence of update calls preserves distinctness of the
stored source addresses. -/
theorem nodup_runUpdates :
    ∀ (calls : List (Int × List Contact)) (s : Stone),
      (s.contacts.map Contact.mac_address).Nodup →
      ((runUpdates s calls).contacts.map Contact.mac_address).Nodup := by
  intro calls
  induction calls with
  | nil => intro s h; exact h
  | cons call rest ih =>
    intro s h
    have hstep : ((s.update call.1 call.2).contacts.map Contact.mac_address).Nodup := by
      show ((call.2.foldl contactStep (s.contacts.filter (windowKeep call.1))).map
        Contact.mac_address).Nodup
      apply nodup_contactFold
      exact ((List.filter_sublist s.contacts).map Contact.mac_address).nodup h
    exact ih (s.update call.1 call.2) hstep

/-- One update call on a stone with distinct stored addresses establishes
both halves of the contacts invariant, provided every incoming contact
lies inside the call's own window. -/
theorem update_establishes_invariant (s : Stone) (T : Int) (S : List Contact)
    (hnd : (s.contacts.map Contact.mac_address).Nodup)
    (hS : ∀ c ∈ S, c.timestamp ≥ T - 60) :
    ((s.update T S).contacts.map Contact.mac_address).Nodup ∧
      ∀ c ∈ (s.update T S).contacts, c.timestamp ≥ (s.update T S).last_update - 60 := by
  constructor
  · show ((S.foldl contactStep (s.contacts.filter (windowKeep T))).map Contact.mac_address).Nodup
    apply nodup_contactFold
    exact ((List.filter_sublist s.contacts).map Contact.mac_address).nodup hnd
  · intro c hc
    show c.timestamp ≥ T - 60
    rcases mem_contactFold S _ hc with h | h
    · have := List.of_mem_filter h
      simpa [windowKeep] using this
    · exact hS c h

/-! ## Claim theorems. -/

/-- Claim C1 (counterexample): the claim as stated quantifies over every
call sequence, but `Stone.update` appends incoming contacts AFTER the
eviction filter has run, so a single call at timestamp 100 delivering a
contact stamped 0 leaves a stored contact with
`timestamp = 0 < last_update - 60 = 40`, violating the stated window
invariant. -/
theorem stone_window_cex :
    ¬ ((((runUpdates (Stone.init "s" (BeaconId.mk "" 0 0) "")
            [(100, [Contact.mk 0 "a" (BeaconId.mk "" 0 0) 0 0 0 0])]).contacts.map
              Contact.mac_address).Nodup) ∧
        ∀ c ∈ (runUpdates (Stone.init "s" (BeaconId.mk "" 0 0) "")
            [(100, [Contact.mk 0 "a" (BeaconId.mk "" 0 0) 0 0 0 0])]).contacts,
          c.timestamp ≥ (runUpdates (Stone.init "s" (BeaconId.mk "" 0 0) "")
            [(100, [Contact.mk 0 "a" (BeaconId.mk "" 0 0) 0 0 0 0])]).last_update - 60) := by
  decide

/-- Claim C1 (amended): for every sequence of `Stone.update` calls on a
freshly constructed stone in which every incoming contact carries a
timestamp within its own call's 60-second window, after every call (i.e.
after every sequence decomposition `calls = pre ++ post`) no two stored
contacts share a source address and every stored contact's timestamp is
at least `last_update - 60`. -/
theorem stone_update_window_invariant (mac : String) (bid : BeaconId) (comment : String)
    (calls pre post : List (Int × List Contact))
    (hcalls : ∀ call ∈ calls, ∀ c ∈ call.2, c.timestamp ≥ call.1 - 60)
    (hsplit : calls = pre ++ post) :
    (((runUpdates (Stone.init mac bid comment) pre).contacts.map Contact.mac_address).Nodup) ∧
      ∀ c ∈ (runUpdates (Stone.init mac bid comment) pre).contacts,
        c.timestamp ≥ (runUpdates (Stone.init mac bid comment) pre).last_update - 60 := by
  subst hsplit
  have hpre : ∀ call ∈ pre, ∀ c ∈ call.2, c.timestamp ≥ call.1 - 60 := by
    intro call hcall
    exact hcalls call (List.mem_append.mpr (Or.inl hcall))
  rcases List.eq_nil_or_concat pre with hnil | ⟨L, b, hconcat⟩
  · subst hnil
    constructor
    · simp [runUpdates, Stone.init]
    · intro c hc
      simp [runUpdates, Stone.init] at hc
  · subst hconcat
    have hb : ∀ c ∈ b.2, c.timestamp ≥ b.1 - 60 := hpre b (by simp)
    have hrw : runUpdates (Stone.init mac bid comment) (L ++ [b])
        = (runUpdates (Stone.init mac bid comment) L).update b.1 b.2 := by
      unfold runUpdates
      rw [List.foldl_append]
      rfl
    rw [List.concat_eq_append, hrw]
    apply update_establishes_invariant
    · apply nodup_runUpdates
      simp [Stone.init]
    · exact hb

/-- Claim C1 (witness): a one-call sequence whose contact is stamped with
the call's own timestamp satisfies the amended invariant. -/
theorem stone_update_window_invariant_witness :
    (((runUpdates (Stone.init "s" (BeaconId.mk "" 0 0) "")
          [(100, [Contact.mk 100 "a" (BeaconId.mk "" 0 0) 0 0 0 0])]).contacts.map
            Contact.mac_address).Nodup) ∧
      ∀ c ∈ (runUpdates (Stone.init "s" (BeaconId.mk "" 0 0) "")
          [(100, [Contact.mk 100 "a" (BeaconId.mk "" 0 0) 0 0 0 0])]).contacts,
        c.timestamp ≥ (runUpdates (Stone.init "s" (BeaconId.mk "" 0 0) "")
          [(100, [Contact.mk 100 "a" (BeaconId.mk "" 0 0) 0 0 0 0])]).last_update - 60 :=
  stone_update_window_invariant "s" (BeaconId.mk "" 0 0) ""
    [(100, [Contact.mk 100 "a" (BeaconId.mk "" 0 0) 0 0 0 0])]
    [(100, [Contact.mk 100 "a" (BeaconId.mk "" 0 0) 0 0 0 0])] []
    (by decide) rfl

/-- Claim C5: `Stone.update` with timestamp `T` evicts exactly the
pre-existing contacts with `timestamp < T - 60` and retains those with
`timestamp ≥ T - 60` (among pre-existing contacts whose address is not
replaced by an incoming contact), and concretely: existing contacts at
t = 0 and t = 30 under an update at t = 61 lose the t = 0 contact and
keep the t = 30 contact. -/
theorem stone_eviction_window :
    (∀ (s : Stone) (T : Int) (S : List Contact) (c : Contact),
        c ∈ s.contacts → (∀ ct ∈ S, ct.mac_address ≠ c.mac_address) →
        (c ∈ (s.update T S).contacts ↔ c.timestamp ≥ T - 60)) ∧
      (exContactA ∉ exStone61.contacts ∧ exContactB ∈ exStone61.contacts ∧
        exStone61.last_update = 61) := by
  constructor
  · intro s T S c hc hS
    constructor
    · intro hmem
      have hmem' : c ∈ S.foldl contactStep (s.contacts.filter (windowKeep T)) := hmem
      rcases mem_contactFold S _ hmem' with h | h
      · have := List.of_mem_filter h
        simpa [windowKeep] using this
      · exact absurd rfl (hS c h)
    · intro hts
      have hK : c ∈ s.contacts.filter (windowKeep T) :=
        List.mem_filter.mpr ⟨hc, by simpa [windowKeep] using hts⟩
      show c ∈ S.foldl contactStep (s.contacts.filter (windowKeep T))
      rw [contactFold_decomp]
      apply List.mem_append.mpr
      left
      apply List.mem_filter.mpr
      refine ⟨hK, ?_⟩
      unfold macFree
      apply List.all_eq_true.mpr
      intro ct hct
      simpa using (hS ct hct).symm
  · exact ⟨by decide, by decide, by decide⟩

/-- Claim C5 (witness): the general boundary law applied to the concrete
t = 30 contact of the example stone. -/
theorem stone_eviction_window_witness :
    exContactB ∈ exStone61.contacts ↔ exContactB.timestamp ≥ 61 - 60 :=
  stone_eviction_window.1 (Stone.mk "s" (BeaconId.mk "" 0 0) "" 30 [exContactA, exContactB])
    61 [exContactC] exContactB (by decide) (by decide)

/-- Claim C6: `Stone.update` is idempotent — applying the same timestamp
and contact snapshot twice yields exactly the state (in particular the
contact collection) obtained from applying it once. -/
theorem stone_update_idempotent (s : Stone) (T : Int) (S : List Contact) :
    (s.update T S).update T S = s.update T S := by
  show Stone.mk s.mac_address s.b_address s.comment T
      (S.foldl contactStep ((S.foldl contactStep (s.contacts.filter (windowKeep T))).filter
        (windowKeep T)))
    = Stone.mk s.mac_address s.b_address s.comment T
      (S.foldl contactStep (s.contacts.filter (windowKeep T)))
  rw [contactFold_idem]

/-- Claim C7: `World.update_stone` inserts the incoming stone verbatim
when its address is absent, and otherwise applies
`existing.update(stone.last_update, stone.contacts)` to the stored stone;
in the latter case the stored stone keeps its own address, beacon
identity and comment, and descriptions are untouched either way. -/
theorem world_update_stone_upsert (w : World) (s : Stone) :
    (dictLookup w.stones s.mac_address = none →
      (w.update_stone s).stones = w.stones ++ [(s.mac_address, s)] ∧
        (w.update_stone s).descs = w.descs) ∧
    (∀ ex, dictLookup w.stones s.mac_address = some ex →
      dictLookup (w.update_stone s).stones s.mac_address
          = some (ex.update s.last_update s.contacts) ∧
        (ex.update s.last_update s.contacts).mac_address = ex.mac_address ∧
        (ex.update s.last_update s.contacts).b_address = ex.b_address ∧
        (ex.update s.last_update s.contacts).comment = ex.comment ∧
        (w.update_stone s).descs = w.descs) := by
  constructor
  · intro h
    constructor
    · simp [World.update_stone, dictSet, h]
    · simp [World.update_stone, h]
  · intro ex h
    refine ⟨?_, rfl, rfl, rfl, ?_⟩
    · simp only [World.update_stone, h]
      exact dictLookup_dictSet_same w.stones s.mac_address (ex.update s.last_update s.contacts)
    · simp [World.update_stone, h]

/-- Claim C7 (witness): upserting a snapshot for an existing address
applies `Stone.update` to the stored stone and keeps its comment. -/
theorem world_update_stone_upsert_witness :
    dictLookup (exWorld.update_stone exStoneNew).stones "s"
        = some (exStoneOld.update exStoneNew.last_update exStoneNew.contacts) ∧
      (exStoneOld.update exStoneNew.last_update exStoneNew.contacts).comment
        = exStoneOld.comment :=
  ⟨((world_update_stone_upsert exWorld exStoneNew).2 exStoneOld rfl).1,
    ((world_update_stone_upsert exWorld exStoneNew).2 exStoneOld rfl).2.2.2.1⟩

/-- Claim C8: `aggregate_stones` emits one entry per input stone under the
same key (never a stone absent from the input); every emitted entry holds
the stone's beacon identity, comment and `last_update`; the contacts list
is present exactly when `include_contacts` is enabled, and its per-contact
entries carry source address, beacon identity, average RSSI and tx RSSI
(the `ContactInfo` record has no timestamp field). -/
theorem aggregate_stones_view :
    (∀ (stones : List (String × Stone)) (inc : Bool),
        (Aggregator.aggregate_stones stones inc).map Prod.fst = stones.map Prod.fst) ∧
    (∀ (stones : List (String × Stone)) (inc : Bool) (mac : String) (info : StoneInfo),
        dictLookup (Aggregator.aggregate_stones stones inc) mac = some info →
        ∃ s, dictLookup stones mac = some s ∧
          info.uuid = s.b_address.uuid ∧ info.major = s.b_address.major ∧
          info.minor = s.b_address.minor ∧ info.comment = s.comment ∧
          info.last_seen = s.last_update ∧
          (inc = true → info.contacts = some (s.contacts.map contactInfoOf)) ∧
          (inc = false → info.contacts = none)) ∧
    (∀ c : Contact, contactInfoOf c = ContactInfo.mk c.mac_address c.b_address.uuid
        c.b_address.major c.b_address.minor c.rssi_avg c.tx_rssi) := by
  refine ⟨?_, ?_, fun c => rfl⟩
  · intro stones inc
    unfold Aggregator.aggregate_stones
    rw [List.map_map]
    rfl
  · intro stones inc mac info h
    unfold Aggregator.aggregate_stones at h
    rw [dictLookup_mapVal (stoneInfoOf inc) stones mac] at h
    rcases hs : dictLookup stones mac with _ | s
    · rw [hs] at h; cases h
    · rw [hs] at h
      have hinfo : stoneInfoOf inc s = info := by simpa using h
      subst hinfo
      refine ⟨s, rfl, rfl, rfl, rfl, rfl, rfl, ?_, ?_⟩
      · intro hinc; subst hinc; rfl
      · intro hinc; subst hinc; rfl

/-- Claim C8 (witness): the lookup law applied to a one-stone input with
contacts disabled. -/
theorem aggregate_stones_view_witness :
    ∃ s, dictLookup [("s", exStoneOld)] "s" = some s ∧
      (stoneInfoOf false exStoneOld).uuid = s.b_address.uuid ∧
      (stoneInfoOf false exStoneOld).major = s.b_address.major ∧
      (stoneInfoOf false exStoneOld).minor = s.b_address.minor ∧
      (stoneInfoOf false exStoneOld).comment = s.comment ∧
      (stoneInfoOf false exStoneOld).last_seen = s.last_update ∧
      (false = true → (stoneInfoOf false exStoneOld).contacts
        = some (s.contacts.map contactInfoOf)) ∧
      (false = false → (stoneInfoOf false exStoneOld).contacts = none) :=
  aggregate_stones_view.2.1 [("s", exStoneOld)] false "s" (stoneInfoOf false exStoneOld) rfl

/-- Claim C9: a description upsert followed immediately by
`aggregate_descs` shows the new `(name, color)` pair at the written
address and leaves every other address's aggregated description
unchanged. -/
theorem desc_roundtrip (w : World) (mac name color other : String) :
    dictLookup (Aggregator.aggregate_descs (w.update_desc mac name color).descs) mac
        = some (DescInfo.mk name color) ∧
      (other ≠ mac →
        dictLookup (Aggregator.aggregate_descs (w.update_desc mac name color).descs) other
          = dictLookup (Aggregator.aggregate_descs w.descs) other) := by
  constructor
  · show dictLookup ((dictSet w.descs mac (name, color)).map (fun q => (q.1, descInfoOf q.2)))
        mac = some (DescInfo.mk name color)
    rw [dictLookup_mapVal descInfoOf, dictLookup_dictSet_same]
    rfl
  · intro hne
    show dictLookup ((dictSet w.descs mac (name, color)).map (fun q => (q.1, descInfoOf q.2)))
        other = dictLookup (Aggregator.aggregate_descs w.descs) other
    rw [dictLookup_mapVal descInfoOf, dictLookup_dictSet_ne _ _ _ _ hne]
    unfold Aggregator.aggregate_descs
    rw [dictLookup_mapVal descInfoOf]

/-- Claim C9 (witness): the round-trip law at a concrete world, written
address and distinct other address. -/
theorem desc_roundtrip_witness :
    dictLookup (Aggregator.aggregate_descs (exWorld.update_desc "s" "n1" "c1").descs) "t"
        = dictLookup (Aggregator.aggregate_descs exWorld.descs) "t" :=
  (desc_roundtrip exWorld "s" "n1" "c1" "t").2 (by decide)

/-- A successfully parsed contact entry carries exactly the beacon
identity computed by `contactBeaconId`. -/
theorem parseContact_b_address (ts : Int) (ct : JValue) (c : Contact)
    (hp : parseContact ts ct = some c) :
    ∃ bid, contactBeaconId ct = some bid ∧ c.b_address = bid := by
  unfold parseContact at hp
  rcases h0 : contactBeaconId ct with _ | bid
  · rw [h0] at hp; exact Option.noConfusion hp
  · rw [h0] at hp
    rcases h1 : jgetStr ct "mac" with _ | mac
    · rw [h1] at hp; exact Option.noConfusion hp
    · rw [h1] at hp
      rcases h2 : jgetInt ct "min" with _ | rmin
      · rw [h2] at hp; exact Option.noConfusion hp
      · rw [h2] at hp
        rcases h3 : jgetInt ct "max" with _ | rmax
        · rw [h3] at hp; exact Option.noConfusion hp
        · rw [h3] at hp
          rcases h4 : jgetInt ct "avg" with _ | ravg
          · rw [h4] at hp; exact Option.noConfusion hp
          · rw [h4] at hp
            rcases h5 : jgetInt ct "remoteRssi" with _ | rtx
            · rw [h5] at hp; exact Option.noConfusion hp
            · rw [h5] at hp
              refine ⟨bid, rfl, ?_⟩
              have hc := Option.some.inj hp
              rw [← hc]

/-- Claim C10: a contact entry's beacon identity fields are optional —
when any of `uuid`, `major`, `minor` is absent the parsed contact's
beacon identity is the empty/zero identity, and when all three are
present the identity is built from their values. -/
theorem contact_beacon_default :
    (∀ (ts : Int) (ct : JValue) (c : Contact), parseContact ts ct = some c →
        (jlookup ct "uuid" = none ∨ jlookup ct "major" = none ∨ jlookup ct "minor" = none) →
        c.b_address = BeaconId.mk "" 0 0) ∧
    (∀ (ts : Int) (ct : JValue) (c : Contact) (u : String) (ma mi : Int),
        parseContact ts ct = some c →
        jlookup ct "uuid" = some (JValue.jstr u) →
        jlookup ct "major" = some (JValue.jint ma) →
        jlookup ct "minor" = some (JValue.jint mi) →
        c.b_address = BeaconId.mk u ma mi) := by
  constructor
  · intro ts ct c hp hmiss
    rcases parseContact_b_address ts ct c hp with ⟨bid, hbid, hcb⟩
    have hdef : contactBeaconId ct = some (BeaconId.mk "" 0 0) := by
      unfold contactBeaconId
      rcases hmiss with h | h | h <;> simp [h]
    rw [hdef] at hbid
    rw [hcb]
    exact (Option.some.inj hbid).symm
  · intro ts ct c u ma mi hp h1 h2 h3
    rcases parseContact_b_address ts ct c hp with ⟨bid, hbid, hcb⟩
    have hdef : contactBeaconId ct = some (BeaconId.mk u ma mi) := by
      unfold contactBeaconId
      rw [h1, h2, h3]
      rfl
    rw [hdef] at hbid
    rw [hcb]
    exact (Option.some.inj hbid).symm

/-- Claim C10 (witness): the default law applied to a concrete entry
lacking the beacon identity fields. -/
theorem contact_beacon_default_witness :
    parseContact 5 exEntryNoBid = some exParsedNoBid ∧
      exParsedNoBid.b_address = BeaconId.mk "" 0 0 :=
  ⟨rfl, contact_beacon_default.1 5 exEntryNoBid exParsedNoBid rfl (Or.inl rfl)⟩

/-- Claim C2 (code bug): the handler parses
`2021-06-01T12:00:00Z` correctly only in a UTC-offset-0 process.  The
re-zoned datetime returned by `replace(tzinfo=tz.UTC)` (line 189) is
discarded, so `timestamp()` converts the naive parse in the local zone:
with the local zone one hour east of UTC the result is 1622545200, one
hour short of the UTC epoch value 1622548800 the claim (and the source's
own comment at line 186) requires, i.e. the conversion is NOT independent
of the local time zone. -/
theorem timestamp_parse_local_tz_bug :
    parseTimestamp 0 "2021-06-01T12:00:00Z" = some 1622548800 ∧
      parseTimestamp 3600 "2021-06-01T12:00:00Z" = some 1622545200 ∧
      parseTimestamp 3600 "2021-06-01T12:00:00Z"
        ≠ parseTimestamp 0 "2021-06-01T12:00:00Z" :=
  ⟨by decide, by decide, by decide⟩

/-- Claim C3 (counterexample): a syntactically valid JSON object that
lacks the required `uuid` field is NOT logged-and-dropped by the decode
guard — the handler raises an uncaught `KeyError` (outcome `uncaught`,
not `decodeError`), because the `try` block of lines 170-179 ends before
the field accesses of line 184. -/
theorem decode_error_drop_cex :
    (on_message defaultConfig defaultState emptyWorld "JellingStone/aa"
        (RawPayload.decoded (JValue.jobj []))).outcome = Outcome.uncaught ∧
      Outcome.uncaught ≠ Outcome.decodeError :=
  ⟨rfl, by decide⟩

/-- Claim C3 (amended): a message whose decompression or JSON parsing
fails is logged and dropped with no mutation of the world, no publication
and no escaping exception; a decoded message with a missing required
field also leaves the world, the throttle state and the publication list
untouched, but it ends in an uncaught exception escaping the handler
rather than in the logged-drop path. -/
theorem decode_error_drop :
    (∀ (cfg : Config) (st : MqttState) (w : World) (topic : String),
        on_message cfg st w topic RawPayload.undecodable
          = HandlerResult.mk st w [] Outcome.decodeError) ∧
    (∀ (cfg : Config) (st : MqttState) (w : World) (topic : String) (data : JValue),
        (on_message cfg st w topic (RawPayload.decoded data)).outcome = Outcome.uncaught →
        (on_message cfg st w topic (RawPayload.decoded data)).world = w ∧
          (on_message cfg st w topic (RawPayload.decoded data)).state = st ∧
          (on_message cfg st w topic (RawPayload.decoded data)).pubs = []) := by
  constructor
  · intro cfg st w topic
    rfl
  · intro cfg st w topic data
    unfold on_message
    repeat' split
    all_goals
      first
      | (intro hout; exact absurd hout (fun h => Outcome.noConfusion h))
      | (intro _; exact ⟨rfl, rfl, rfl⟩)

/-- Claim C3 (witness): the no-mutation law applied to a decoded sensor
message missing every required field. -/
theorem decode_error_drop_witness :
    (on_message defaultConfig defaultState emptyWorld "JellingStone/ab"
        (RawPayload.decoded (JValue.jobj []))).world = emptyWorld ∧
      (on_message defaultConfig defaultState emptyWorld "JellingStone/ab"
        (RawPayload.decoded (JValue.jobj []))).state = defaultState ∧
      (on_message defaultConfig defaultState emptyWorld "JellingStone/ab"
        (RawPayload.decoded (JValue.jobj []))).pubs = [] :=
  decode_error_drop.2 defaultConfig defaultState emptyWorld "JellingStone/ab"
    (JValue.jobj []) rfl

/-- Claim C4: the sensor branch publishes the aggregated stones and graph
documents exactly when `timestamp - last_stone_update ≥ update_interval`,
advancing `last_stone_update` to the report timestamp when it does and
changing nothing otherwise; consequently two valid sensor reports for the
same stone timestamped `update_interval - 1` seconds apart (3 s at the
default interval of 4 s) trigger exactly one publish of the
`Aggregated/Stones` / `Aggregated/Graph` pair combined. -/
theorem publish_throttle_spec :
    (∀ (cfg : Config) (st : MqttState) (w : World) (T : Int),
        (throttle_publish cfg st w T).2 ≠ [] ↔
          T - st.last_stone_update ≥ st.update_interval) ∧
    (∀ (cfg : Config) (st : MqttState) (w : World) (T : Int),
        T - st.last_stone_update ≥ st.update_interval →
        (throttle_publish cfg st w T).1.last_stone_update = T ∧
          (throttle_publish cfg st w T).2 =
            [(st.channel_out_stones,
                OutDoc.stonesDoc (Aggregator.aggregate_stones w.stones cfg.include_contacts)),
              (st.channel_out_graph,
                OutDoc.graphDoc (Aggregator.aggregate_graph w.stones T))]) ∧
    (∀ (cfg : Config) (st : MqttState) (w : World) (T : Int),
        ¬ (T - st.last_stone_update ≥ st.update_interval) →
        throttle_publish cfg st w T = (st, [])) ∧
    (run1.pubs.map Prod.fst = ["Aggregated/Stones", "Aggregated/Graph"] ∧
      run1.pubs.length = 2 ∧ run1.outcome = Outcome.handled ∧
      run2.pubs = [] ∧ run2.outcome = Outcome.handled) := by
  refine ⟨?_, ?_, ?_, by decide, by decide, by decide, by decide, by decide⟩
  · intro cfg st w T
    unfold throttle_publish
    split
    · next h => simp [h]
    · next h => simp [h]
  · intro cfg st w T h
    unfold throttle_publish
    rw [if_pos h]
    exact ⟨rfl, rfl⟩
  · intro cfg st w T h
    unfold throttle_publish
    rw [if_neg h]

/-- Claim C4 (witness): the throttle laws applied at concrete timestamps
10 (past the interval: publishes and advances) and 3 (inside the
interval: publishes nothing). -/
theorem publish_throttle_spec_witness :
    (throttle_publish defaultConfig defaultState emptyWorld 10).1.last_stone_update = 10 ∧
      throttle_publish defaultConfig defaultState emptyWorld 3 = (defaultState, []) :=
  ⟨(publish_throttle_spec.2.1 defaultConfig defaultState emptyWorld 10 (by decide)).1,
    publish_throttle_spec.2.2.1 defaultConfig defaultState emptyWorld 3 (by decide)⟩
